import Mathlib

/-!
Verification development for the offline video processing system
(video_producer).  The Python sources under src/video_producer are
shallowly embedded below: pure computations become Lean functions over
Nat / Rat, the stateful pipeline run becomes an explicit result record,
and the while loop of Pipeline._calculate_chunks is given fuel so that
its divergence for chunk_frames = 0 is expressible.
-/

namespace VideoProducer

/-! ### String constants used by concrete evaluations -/

def nvencCodec : String := "h264_nvenc"

def x264Codec : String := "libx264"

def unknownError : String := "Unknown error"

def jsonSuffix : String := ".json"

/-! ### Chunk calculation (src/video_producer/core/pipeline.py, lines 133-143)

Pipeline._calculate_chunks runs
  while current < total_frames:
      end = min(current + chunk_frames, total_frames)
      chunks.append((current, end))
      current = end
The loop is embedded with explicit fuel: a result of none means the fuel
was exhausted before the loop finished, so returning none for every fuel
value models divergence of the Python loop. -/

def calcChunksAux : Nat → Nat → Nat → Nat → Option (List (Nat × Nat))
  | 0, _, _, _ => none
  | fuel + 1, totalFrames, chunkFrames, current =>
      if current < totalFrames then
        match calcChunksAux fuel totalFrames chunkFrames
            (min (current + chunkFrames) totalFrames) with
        | some rest => some ((current, min (current + chunkFrames) totalFrames) :: rest)
        | none => none
      else
        some []

/-- Pipeline._calculate_chunks with enough fuel for every terminating case:
when chunk_frames is at least 1 the loop advances by at least one frame per
iteration, so totalFrames + 1 - startFrame + 1 iterations always suffice. -/
def calcChunks (totalFrames chunkFrames startFrame : Nat) : Option (List (Nat × Nat)) :=
  calcChunksAux (totalFrames + 1 - startFrame + 1) totalFrames chunkFrames startFrame

/-- A list of half-open intervals partitions the half-open range from a to b:
each interval is nonempty, starts where the previous one ended, the first
starts at a and the last ends at b. -/
def isPartition : List (Nat × Nat) → Nat → Nat → Prop
  | [], a, b => a = b
  | (s, e) :: rest, a, b => s = a ∧ s < e ∧ isPartition rest e b

/-- Pipeline.process line 72: chunk_frames = int(self.chunk_duration * self.fps).
Python int() truncates toward zero, which for a nonnegative product is the
floor; fps is modelled exactly as a rational. -/
def chunkFramesOf (d fps : ℚ) : Nat := (⌊d * fps⌋).toNat

/-- Spec-side definition (spec section 4.2 step 1), for comparison with
chunkFramesOf: chunk_frames = round(chunk_duration * fps), rounding to the
nearest integer. -/
def chunkFramesSpec (d fps : ℚ) : Nat := (round (d * fps)).toNat

/-! ### Checkpointing and the pipeline run (pipeline.py lines 42-131, checkpoint.py) -/

/-- CheckpointRecord as persisted by Pipeline.process lines 102-109. -/
structure Checkpoint where
  last_frame : Nat
  total_frames : Nat
  chunks_completed : Nat
  codec : String
  crf : Nat
deriving DecidableEq

/-- Pipeline.process lines 63-69: if a checkpoint manager is configured and a
record exists, start_frame = checkpoint.get('last_frame', 0); no field of the
record other than last_frame is consulted. -/
def processStartFrame : Option Checkpoint → Nat
  | some cp => cp.last_frame
  | none => 0

/-- Modelled from the spec (section 4.2 step 2), for comparison with
processStartFrame: resume from last_frame only when the recorded codec and
crf both equal the requested ones, otherwise start from frame 0. -/
def processStartFrameSpec : Option Checkpoint → String → Nat → Nat
  | some cp, codec, crf => if cp.codec = codec ∧ cp.crf = crf then cp.last_frame else 0
  | none, _, _ => 0

/-- Observable outcome of one Pipeline.process run. -/
structure ProcessResult where
  startFrame : Nat
  outputProduced : Bool
  finalCheckpoint : Option Checkpoint
  chunksDone : Nat
  framesProcessed : Nat
  success : Bool
deriving DecidableEq

/-- Pipeline.process (pipeline.py lines 57-131).  cp is the loaded checkpoint
record (if any) and hasCheckpoint says a checkpoint manager plus job id are
configured.  cancelAt = some t means the cooperative cancellation flag becomes
set just before the flag check preceding chunk index t (lines 81-83); none
means it is never set.  The chunk loop breaks at the first set flag; after the
loop, one produced chunk file is renamed onto output_path and two or more are
stitched onto it (lines 111-120), so a file appears at output_path exactly
when at least one chunk finished.  The checkpoint is cleared only when not
cancelled (lines 122-124); otherwise the last record saved in this run (or,
when no chunk finished, the pre-existing record) remains on disk. -/
def runProcess (totalFrames chunkFrames : Nat) (cp : Option Checkpoint)
    (hasCheckpoint : Bool) (codec : String) (crf : Nat)
    (cancelAt : Option Nat) : Option ProcessResult :=
  let startFrame := if hasCheckpoint then processStartFrame cp else 0
  (calcChunks totalFrames chunkFrames startFrame).map (fun chunks =>
    let done := match cancelAt with
      | some t => min t chunks.length
      | none => chunks.length
    let outputs := chunks.take done
    let saved : Option Checkpoint :=
      match outputs.getLast? with
      | some p =>
          if hasCheckpoint then
            some { last_frame := p.2, total_frames := totalFrames,
                   chunks_completed := done, codec := codec, crf := crf }
          else none
      | none => none
    { startFrame := startFrame
      outputProduced := decide (1 ≤ outputs.length)
      finalCheckpoint :=
        if hasCheckpoint && cancelAt.isNone then none
        else match saved with
          | some c => some c
          | none => if hasCheckpoint then cp else none
      chunksDone := done
      framesProcessed := ((outputs.getLast?).map (fun p => p.2)).getD 0
      success := cancelAt.isNone })

/-- Checkpoint used in the resume counterexamples: one chunk of an NVENC
encode at crf 18 already done. -/
def checkpointNvenc : Checkpoint :=
  { last_frame := 100, total_frames := 300, chunks_completed := 1,
    codec := nvencCodec, crf := 18 }

/-! ### Checkpoint key (pipeline.py lines 42-48, checkpoint.py lines 18-27) -/

/-- Index of the last dot character in the list, if any dot occurs. -/
def lastDotIndex (cs : List Char) : Option Nat :=
  (List.range cs.length).foldl
    (fun acc i => if cs.get? i = some (Char.ofNat 46) then some i else acc) none

/-- Characters after the last path separator: pathlib's final path component
for paths without a trailing separator. -/
def lastComponent (cs : List Char) : List Char :=
  cs.foldl (fun acc ch => if ch = Char.ofNat 47 then [] else acc ++ [ch]) []

/-- Python pathlib Path(p).stem as used at pipeline.py line 45: the final
path component without its last suffix, where a suffix is a trailing dot
segment whose dot sits strictly inside the name (neither leading nor final
character). -/
def pathStem (p : String) : String :=
  let cs := lastComponent p.toList
  match lastDotIndex cs with
  | some i => if 0 < i ∧ i + 1 < cs.length then String.mk (cs.take i) else String.mk cs
  | none => String.mk cs

/-- Pipeline.__init__ lines 42-48: self.job_id = Path(input_path).stem. -/
def pipelineJobId (input_path : String) : String := pathStem input_path

/-- CheckpointManager.save line 20: the record is stored at
checkpoint_dir / (job_id + ".json"). -/
def checkpointFileName (job_id : String) : String := job_id ++ jsonSuffix

/-- The persisted key a pipeline run uses for a given input file while
processing a given style.  The style argument is unused because the code
derives job_id from the input stem alone; it is kept so that the claimed
key-per-(input, style) property can be stated. -/
def checkpointKey (input_path _style : String) : String :=
  checkpointFileName (pipelineJobId input_path)

/-! ### Tiled inference (src/video_producer/core/ml_session.py, lines 66-147)

Frames are embedded as functions from row and column to an exact rational
pixel value.  The three colour channels are processed identically and
independently by the code (the weight map is broadcast over the channel
axis), so a single channel is modelled.  The stylizer network is a
parameter net operating on a tile_size x tile_size image; writing the
identity function for net models the identity stylizer (the uint8 round
trips of _infer_single are exact on integer pixel values in [0, 255],
matching the claim's modulo-rounding reading). -/

/-- Epsilon floor 1e-6 applied to the accumulated weight (line 112). -/
def epsQ : ℚ := 1 / 1000000

/-- MLSession._create_weight_map (lines 134-147): start from all ones; for
i = 0, ..., overlap-1 set row i, row h-1-i, column i and column w-1-i to
i / overlap.  All four writes of one iteration store the same value, and
later iterations overwrite earlier ones, which the fold reproduces. -/
def createWeightMap (h w overlap : Nat) : Nat → Nat → ℚ :=
  (List.range overlap).foldl
    (fun wm i => fun r c =>
      if r = i ∨ r = h - 1 - i ∨ c = i ∨ c = w - 1 - i
      then (i : ℚ) / (overlap : ℚ)
      else wm r c)
    (fun _ _ => 1)

/-- Index mapping of np.pad mode=reflect with padding on the trailing edge
only (line 97): positions past the end mirror back without repeating the
edge sample. -/
def reflectIdx (n i : Nat) : Nat := if i < n then i else 2 * (n - 1) - i

/-- Python range(0, stop, step) for positive step. -/
def rangeStep (stop step : Nat) : List Nat :=
  (List.range ((stop + step - 1) / step)).map (fun k => k * step)

/-- Tile positions visited by the two nested loops at lines 83-84 (y outer,
x inner, stride = tile_size - overlap). -/
def tilePositions (h w stride : Nat) : List (Nat × Nat) :=
  (rangeStep h stride).flatMap (fun y => (rangeStep w stride).map (fun x => (y, x)))

/-- One iteration of the tile loop body (lines 85-109) acting on the pair of
accumulators (output, weight_map): extract the tile at pos, reflect-pad it
to tile_size, run the network, crop back to the true extent, and add the
result times the feathered weight into the region, adding the weight into
the weight accumulator. -/
def accTile (net : (Nat → Nat → ℚ) → Nat → Nat → ℚ) (img : Nat → Nat → ℚ)
    (h w tile overlap : Nat)
    (acc : (Nat → Nat → ℚ) × (Nat → Nat → ℚ)) (pos : Nat × Nat) :
    (Nat → Nat → ℚ) × (Nat → Nat → ℚ) :=
  let y := pos.1
  let x := pos.2
  let y2 := min (y + tile) h
  let x2 := min (x + tile) w
  let th := y2 - y
  let tw := x2 - x
  let result := net (fun r c => img (y + reflectIdx th r) (x + reflectIdx tw c))
  let wmap := createWeightMap th tw overlap
  (fun r c =>
      if y ≤ r ∧ r < y2 ∧ x ≤ c ∧ c < x2 then
        acc.1 r c + result (r - y) (c - x) * wmap (r - y) (c - x)
      else acc.1 r c,
   fun r c =>
      if y ≤ r ∧ r < y2 ∧ x ≤ c ∧ c < x2 then
        acc.2 r c + wmap (r - y) (c - x)
      else acc.2 r c)

/-- Accumulated (output, weight_map) after the full tile loop, starting from
the zero buffers of lines 78-79. -/
def tileAccum (net : (Nat → Nat → ℚ) → Nat → Nat → ℚ) (img : Nat → Nat → ℚ)
    (h w tile overlap : Nat) : (Nat → Nat → ℚ) × (Nat → Nat → ℚ) :=
  (tilePositions h w (tile - overlap)).foldl
    (accTile net img h w tile overlap) (fun _ _ => 0, fun _ _ => 0)

/-- MLSession.infer_tiled (lines 66-115): frames fitting in one tile go
through the network directly; larger frames are processed tile by tile and
the accumulated output is divided by the accumulated weight floored at
epsilon. -/
def inferTiled (net : (Nat → Nat → ℚ) → Nat → Nat → ℚ) (img : Nat → Nat → ℚ)
    (h w tile overlap : Nat) : Nat → Nat → ℚ :=
  if h ≤ tile ∧ w ≤ tile then net img
  else fun r c =>
    (tileAccum net img h w tile overlap).1 r c /
      max ((tileAccum net img h w tile overlap).2 r c) epsQ

/-- Constant test frame with every pixel equal to 7. -/
def constFrame7 : Nat → Nat → ℚ := fun _ _ => 7

/-! ### Progress reporting (video_processor.py lines 85-200, job_manager.py lines 108-117)

VideoProcessor._process_single_style counts frames from 1 and fires the
callback whenever frame_count % 10 == 0, passing current = frame_count and
total = metadata nb_frames; JobManager._process_job.progress_callback then
writes job.progress = current / total * 100 (0 when total is 0). -/

/-- Successive job.progress values written during one style pass over an
input of n frames. -/
def styleProgressValues (n : Nat) : List ℚ :=
  (((List.range n).map (fun k => k + 1) : List Nat).filter (fun k => k % 10 = 0)).map
    (fun k : Nat => if 0 < n then (k : ℚ) / (n : ℚ) * 100 else 0)

/-- VideoProcessor.process lines 89-104: the requested styles are processed
in order and each style runs _process_single_style over the whole input, so
the job.progress values written across the run are the per-style sequences
concatenated. -/
def runProgressValues (numStyles n : Nat) : List ℚ :=
  (List.replicate numStyles (styleProgressValues n)).flatten

/-! ### Job worker (src/video_producer/core/job_manager.py, lines 71-136) -/

inductive JobStatus
  | queued
  | processing
  | completed
  | failed
  | cancelled
deriving DecidableEq

/-- The Job fields the worker's failure semantics touch. -/
structure Job where
  id : String
  status : JobStatus
  error : Option String
  progress : ℚ
deriving DecidableEq

/-- JobManager._process_job (lines 84-136).  The outcome argument models the
processor.process call: Except.error e is an exception raised during
processing with text e, caught at lines 132-136; Except.ok true and
Except.ok false are a normal return whose result success flag is true or
false (lines 123-128; the failure branch reads result.get('error',
'Unknown error') and VideoProcessor.process never sets an 'error' key). -/
def processJob (j : Job) (outcome : Except String Bool) : Job :=
  match outcome with
  | Except.ok true => { j with status := JobStatus.completed, progress := 100 }
  | Except.ok false => { j with status := JobStatus.failed, error := some unknownError }
  | Except.error e => { j with status := JobStatus.failed, error := some e }

/-- JobManager._worker (lines 71-82): the loop dequeues each queued job in
turn and calls _process_job on it; _process_job catches every exception at
the per-job boundary (and the loop body has its own catch-all), so every
queued job is processed no matter how earlier ones ended. -/
def workerRun (queue : List (Job × Except String Bool)) : List Job :=
  queue.map (fun jo => processJob jo.1 jo.2)

/-! ### Scene analysis (src/video_producer/core/pattern_learner.py) -/

/-- SceneCharacteristics record returned by PatternLearner.analyze_video. -/
structure SceneCharacteristics where
  brightness : ℚ
  contrast : ℚ
  edge_density : ℚ
  color_richness : ℚ
  noise_level : ℚ
  motion_estimate : ℚ
deriving DecidableEq

/-- PatternLearner._get_default_characteristics (lines 159-168). -/
def defaultCharacteristics : SceneCharacteristics :=
  { brightness := 1/2, contrast := 1/2, edge_density := 3/10,
    color_richness := 1/2, noise_level := 1/5, motion_estimate := 1/2 }

/-- Per-frame statistics computed with cv2 at lines 32-50 (mean luma / 255,
luma stddev / 128, Canny edge fraction, mean channel stddev / 128, Laplacian
variance / 10000), abstracted here as given rationals. -/
structure FrameStats where
  brightness : ℚ
  contrast : ℚ
  edge_density : ℚ
  color_richness : ℚ
  noise_level : ℚ
deriving DecidableEq

/-- Clipping to [0, 1] (np.clip at line 56). -/
def clip01 (x : ℚ) : ℚ := max 0 (min x 1)

/-- PatternLearner.analyze_video (lines 17-58): with no sample frames the
neutral defaults are returned; otherwise each accumulated statistic is
divided by the frame count and clipped to [0, 1].  motion_estimate starts
at 0.0 and is never incremented by the loop. -/
def analyzeVideo (frames : List FrameStats) : SceneCharacteristics :=
  if frames.isEmpty then defaultCharacteristics
  else
    let n : ℚ := (frames.length : ℚ)
    { brightness := clip01 ((frames.map FrameStats.brightness).sum / n)
      contrast := clip01 ((frames.map FrameStats.contrast).sum / n)
      edge_density := clip01 ((frames.map FrameStats.edge_density).sum / n)
      color_richness := clip01 ((frames.map FrameStats.color_richness).sum / n)
      noise_level := clip01 ((frames.map FrameStats.noise_level).sum / n)
      motion_estimate := clip01 (0 / n) }

/-! ### Concrete inputs used by counterexamples and witnesses -/

def clipPath : String := "videos/clip.mp4"

def clipJson : String := "clip.json"

def nestedPath : String := "data/archive.tar.gz"

def nestedJson : String := "archive.tar.json"

def noExtPath : String := "movie"

def noExtJson : String := "movie.json"

def pencilStyle : String := "Pencil Sketch"

def cartoonStyle : String := "Cartoon"

/-- Exception text used in the worker witness. -/
def boomMsg : String := "frame decode failed"

/-- A queued job as constructed by JobManager.add_job. -/
def jobA : Job :=
  { id := "job-a", status := JobStatus.queued, error := none, progress := 0 }

/-- A second queued job behind jobA. -/
def jobB : Job :=
  { id := "job-b", status := JobStatus.queued, error := none, progress := 0 }

/-! ## Helper lemmas -/

theorem isPartition_le :
    ∀ (l : List (Nat × Nat)) (a b : Nat), isPartition l a b → a ≤ b
  | [], _, _, h => le_of_eq h
  | (s, e) :: rest, a, b, h => by
      obtain ⟨hs, hlt, hrest⟩ := h
      have := isPartition_le rest e b hrest
      omega

theorem isPartition_getLast :
    ∀ (l : List (Nat × Nat)) (a b : Nat), isPartition l a b → a < b →
      ∃ p, l.getLast? = some p ∧ p.2 = b
  | [], a, b, h, hab => by
      have hab2 : a = b := h
      omega
  | (s, e) :: rest, a, b, h, hab => by
      obtain ⟨hs, hse, hrest⟩ := h
      cases rest with
      | nil =>
          exact ⟨(s, e), rfl, hrest⟩
      | cons q qs =>
          obtain ⟨q1, q2⟩ := q
          have hq : e < b := by
            obtain ⟨h1, h2, h3⟩ := hrest
            have := isPartition_le qs q2 b h3
            omega
          obtain ⟨p, hp, hpb⟩ := isPartition_getLast ((q1, q2) :: qs) e b hrest hq
          exact ⟨p, by rw [List.getLast?_cons_cons]; exact hp, hpb⟩

theorem calcChunksAux_spec (chunkFrames : Nat) (hc : 1 ≤ chunkFrames) :
    ∀ (fuel totalFrames current : Nat), totalFrames + 1 - current ≤ fuel →
      current ≤ totalFrames →
      ∃ l, calcChunksAux fuel totalFrames chunkFrames current = some l ∧
        isPartition l current totalFrames ∧
        ∀ p ∈ l, p.2 - p.1 ≤ chunkFrames := by
  intro fuel
  induction fuel with
  | zero => intro total current hf hct; omega
  | succ fuel ih =>
      intro total current hf hct
      by_cases h : current < total
      · have hlt : current < min (current + chunkFrames) total := by omega
        obtain ⟨l, hl, hpart, hsz⟩ :=
          ih total (min (current + chunkFrames) total) (by omega) (by omega)
        refine ⟨(current, min (current + chunkFrames) total) :: l, ?_, ?_, ?_⟩
        · simp only [calcChunksAux, if_pos h, hl]
        · exact ⟨rfl, hlt, hpart⟩
        · intro p hp
          rcases List.mem_cons.mp hp with rfl | hp
          · simp only []
            omega
          · exact hsz p hp
      · have hct2 : current = total := by omega
        subst hct2
        exact ⟨[], by simp [calcChunksAux, h], by simp [isPartition], by simp⟩

/-! ## Claim theorems -/

/-- C3: for every total frame count, every start frame at most the total and
every chunk size of at least one frame, Pipeline._calculate_chunks terminates
and returns contiguous, non-overlapping half-open ranges that cover exactly
[start_frame, total_frames), every range spanning at most chunk_frames frames
(so the final one may be shorter), and whenever the covered range is nonempty
the last range ends exactly at total_frames. -/
theorem chunk_partition (totalFrames startFrame chunkFrames : Nat)
    (hs : startFrame ≤ totalFrames) (hc : 1 ≤ chunkFrames) :
    ∃ l, calcChunks totalFrames chunkFrames startFrame = some l ∧
      isPartition l startFrame totalFrames ∧
      (∀ p ∈ l, p.2 - p.1 ≤ chunkFrames) ∧
      (startFrame < totalFrames → ∃ p, l.getLast? = some p ∧ p.2 = totalFrames) := by
  obtain ⟨l, hl, hpart, hsz⟩ :=
    calcChunksAux_spec chunkFrames hc (totalFrames + 1 - startFrame + 1)
      totalFrames startFrame (by omega) hs
  exact ⟨l, hl, hpart, hsz, fun hlt => isPartition_getLast l _ _ hpart hlt⟩

/-- Witness for C3: the spec scenario with 300 frames, start 0 and 150-frame
chunks. -/
theorem chunk_partition_witness :
    ((0 : Nat) ≤ 300 ∧ (1 : Nat) ≤ 150) ∧
    ∃ l, calcChunks 300 150 0 = some l ∧ isPartition l 0 300 ∧
      (∀ p ∈ l, p.2 - p.1 ≤ 150) ∧
      (0 < 300 → ∃ p, l.getLast? = some p ∧ p.2 = 300) :=
  ⟨⟨by decide, by decide⟩, chunk_partition 300 0 150 (by decide) (by decide)⟩

/-- C10: with chunk_frames at least 1 the chunk loop of
Pipeline._calculate_chunks terminates (the fuel calcChunks supplies is
enough); with chunk_frames = 0 and start_frame below total_frames the loop
never advances, so no amount of fuel completes it; and the pipeline's
chunk_frames = int(chunk_duration * fps) is 0 whenever the product is below
1, e.g. when fps is below 1 / chunk_duration. -/
theorem chunk_zero_divergence :
    (∀ totalFrames startFrame chunkFrames : Nat, startFrame ≤ totalFrames →
        1 ≤ chunkFrames → (calcChunks totalFrames chunkFrames startFrame).isSome) ∧
    (∀ totalFrames startFrame : Nat, startFrame < totalFrames →
        ∀ fuel, calcChunksAux fuel totalFrames 0 startFrame = none) ∧
    (∀ d fps : ℚ, 0 ≤ d * fps → d * fps < 1 → chunkFramesOf d fps = 0) := by
  refine ⟨?_, ?_, ?_⟩
  · intro total start chunk hs hc
    obtain ⟨l, hl, -, -⟩ :=
      calcChunksAux_spec chunk hc (total + 1 - start + 1) total start (by omega) hs
    show (calcChunksAux (total + 1 - start + 1) total chunk start).isSome
    rw [hl]
    rfl
  · intro total start hlt fuel
    induction fuel with
    | zero => rfl
    | succ fuel ih =>
        have hmin : min (start + 0) total = start := by
          rw [Nat.add_zero]
          exact min_eq_left (le_of_lt hlt)
        rw [calcChunksAux, if_pos hlt, hmin, ih]
  · intro d fps h0 h1
    have hz : ⌊d * fps⌋ = 0 := Int.floor_eq_zero_iff.mpr ⟨h0, h1⟩
    simp [chunkFramesOf, hz]

/-- Witness for C10: a terminating run, a diverging run at chunk size 0, and
a zero chunk size from fps = 0.03 with a 10-second chunk duration. -/
theorem chunk_zero_divergence_witness :
    (calcChunks 300 150 0).isSome ∧
    calcChunksAux 40 30 0 0 = none ∧
    chunkFramesOf 10 (3/100) = 0 :=
  ⟨chunk_zero_divergence.1 300 0 150 (by decide) (by decide),
   chunk_zero_divergence.2.1 30 0 (by decide) 40,
   chunk_zero_divergence.2.2 10 (3/100) (by norm_num) (by norm_num)⟩

/-- C7 counterexample: at fps = 29.97 and chunk_duration = 10 the code's
int-truncation yields chunk_frames = 299 while rounding to the nearest
integer, as the claim states, would yield 300. -/
theorem chunk_frames_trunc_ne_round :
    chunkFramesOf 10 (2997/100) = 299 ∧ chunkFramesSpec 10 (2997/100) = 300 ∧
    chunkFramesOf 10 (2997/100) ≠ chunkFramesSpec 10 (2997/100) := by
  have h1 : (⌊(10 : ℚ) * (2997/100)⌋ : ℤ) = 299 := by
    apply Int.floor_eq_iff.mpr
    constructor <;> norm_num
  have h2 : (round ((10 : ℚ) * (2997/100)) : ℤ) = 300 := by
    rw [round_eq]
    apply Int.floor_eq_iff.mpr
    constructor <;> norm_num
  refine ⟨?_, ?_, ?_⟩
  · simp [chunkFramesOf, h1]
  · simp [chunkFramesSpec, h2]
  · simp [chunkFramesOf, chunkFramesSpec, h1, h2]

/-- C7 amended: the chunk size the pipeline uses is int(chunk_duration * fps),
the floor of the product; it agrees with round(chunk_duration * fps) exactly
when the fractional part of the product is below one half (in particular
whenever the product is an integer, as in the spec's fps = 30 scenarios),
while fps = 29.97 with chunk_duration = 10 yields 299, not 300. -/
theorem chunkFrames_eq_round_of_fract_lt_half (d fps : ℚ)
    (hfr : Int.fract (d * fps) < 1/2) :
    chunkFramesOf d fps = chunkFramesSpec d fps := by
  have hf : d * fps - (⌊d * fps⌋ : ℚ) < 1/2 := by
    unfold Int.fract at hfr
    exact hfr
  have hfl : (⌊d * fps⌋ : ℚ) ≤ d * fps := Int.floor_le _
  have h : ⌊d * fps + 1/2⌋ = ⌊d * fps⌋ := by
    apply Int.floor_eq_iff.mpr
    constructor
    · linarith
    · linarith
  unfold chunkFramesOf chunkFramesSpec
  rw [round_eq, h]

/-- Witness for the amended C7 at the spec scenario fps = 30, d = 10. -/
theorem chunkFrames_eq_round_witness :
    Int.fract ((10 : ℚ) * 30) < 1/2 ∧ chunkFramesOf 10 30 = chunkFramesSpec 10 30 ∧
    chunkFramesOf 10 30 = 300 := by
  have h3 : (⌊(10 : ℚ) * 30⌋ : ℤ) = 300 := by
    apply Int.floor_eq_iff.mpr
    constructor <;> norm_num
  have hfr : Int.fract ((10 : ℚ) * 30) < 1/2 := by
    unfold Int.fract
    rw [h3]
    norm_num
  exact ⟨hfr, chunkFrames_eq_round_of_fract_lt_half 10 30 hfr, by simp [chunkFramesOf, h3]⟩

/-- C1: the code resumes from an existing checkpoint unconditionally.  With a
checkpoint recorded for an h264_nvenc encode at crf 18 and last_frame 100, a
run requesting libx264 at crf 23 still starts at frame 100 (both in the
start-frame computation of lines 63-69 and in the full process run), whereas
the claimed behavior, processStartFrameSpec, restarts at frame 0 because the
recorded codec and crf differ from the requested ones. -/
theorem resume_ignores_codec_crf :
    processStartFrame (some checkpointNvenc) = 100 ∧
    processStartFrameSpec (some checkpointNvenc) x264Codec 23 = 0 ∧
    checkpointNvenc.codec ≠ x264Codec ∧
    (runProcess 300 150 (some checkpointNvenc) true x264Codec 23 none).map
      ProcessResult.startFrame = some 100 := by
  refine ⟨rfl, ?_, ?_, ?_⟩ <;> decide

/-- C2: a run of two 150-frame chunks over 300 frames whose cancellation flag
is observed set before chunk index 1 still produces a file at the output path
(the single finished chunk file is renamed onto it; with two or more finished
chunks they would be stitched onto it and the temp files deleted), while
reporting success = false; the checkpoint saved after chunk 0 is preserved.
The claim says no final file may appear at the output path in this
situation. -/
theorem cancelled_run_still_produces_output :
    runProcess 300 150 none true x264Codec 18 (some 1) =
      some { startFrame := 0, outputProduced := true,
             finalCheckpoint := some { last_frame := 150, total_frames := 300,
                                       chunks_completed := 1,
                                       codec := x264Codec, crf := 18 },
             chunksDone := 1, framesProcessed := 150, success := false } := by
  decide

/-- C6 counterexample: the checkpoint key is derived from the input file stem
alone, so the Pencil and Cartoon styles of videos/clip.mp4 share the key
clip.json even though the styles differ, contradicting the claimed distinct
key per (input, style) identity. -/
theorem checkpoint_key_ignores_style :
    pencilStyle ≠ cartoonStyle ∧
    checkpointKey clipPath pencilStyle = checkpointKey clipPath cartoonStyle ∧
    checkpointKey clipPath pencilStyle = clipJson := by
  refine ⟨?_, ?_, ?_⟩ <;> decide

/-- C6 amended: the persisted checkpoint record is stored under the key
Path(input_path).stem plus ".json"; the style does not enter the key, so any
two styles of the same input share one checkpoint record (the stem drops the
directory part and only the last dot suffix of the file name). -/
theorem checkpoint_key_input_only (s1 s2 : String) :
    (∀ input, checkpointKey input s1 = checkpointKey input s2) ∧
    checkpointKey nestedPath pencilStyle = nestedJson ∧
    checkpointKey noExtPath cartoonStyle = noExtJson := by
  refine ⟨fun _ => rfl, ?_, ?_⟩ <;> decide

/-- C5 counterexample: a job with two styles over a 20-frame input writes the
progress sequence 50, 100, 50, 100: progress drops from 100 back to 50 when
processing moves from the first style to the second, so progress is not
non-decreasing across the Processing phase of a multi-style job. -/
theorem progress_drops_between_styles :
    runProgressValues 2 20 = [50, 100, 50, 100] ∧
    ¬ List.Chain' (fun a b => a ≤ b) (runProgressValues 2 20) := by
  have hsty : styleProgressValues 20 = [50, 100] := by
    rw [styleProgressValues]
    have hfil : ((List.range 20).map (fun k => k + 1) : List Nat).filter
        (fun k => k % 10 = 0) = [10, 20] := by decide
    rw [hfil]
    norm_num
  have hrun : runProgressValues 2 20 = [50, 100, 50, 100] := by
    simp [runProgressValues, hsty, List.replicate]
  refine ⟨hrun, ?_⟩
  rw [hrun]
  norm_num [List.chain'_cons]

/-- C5 amended: the progress values written during one style pass are
non-decreasing (the callback argument grows with the frame counter while the
total is fixed), so a single-style run has a non-decreasing progress
sequence; with two or more styles the sequence restarts at each style
boundary, where it can drop, as the counterexample shows. -/
theorem progress_monotone_within_style (n : Nat) :
    List.Pairwise (fun a b => a ≤ b) (styleProgressValues n) ∧
    List.Chain' (fun a b => a ≤ b) (styleProgressValues n) ∧
    runProgressValues 1 n = styleProgressValues n := by
  have hbase : List.Pairwise (fun a b : Nat => a < b)
      (((List.range n).map (fun k => k + 1) : List Nat).filter
        (fun k => k % 10 = 0)) :=
    List.Pairwise.filter _
      ((List.pairwise_lt_range n).map _ (fun a b hab => by omega))
  have hpair : List.Pairwise (fun a b => a ≤ b) (styleProgressValues n) := by
    rw [styleProgressValues]
    refine List.Pairwise.map
      (fun k : Nat => if 0 < n then (k : ℚ) / (n : ℚ) * 100 else 0)
      (fun a b hab => ?_) hbase
    by_cases hn : 0 < n
    · simp only [if_pos hn]
      have h1 : (a : ℚ) ≤ (b : ℚ) := by exact_mod_cast hab.le
      have h2 : (0 : ℚ) < (n : ℚ) := by exact_mod_cast hn
      gcongr
    · simp [hn]
  refine ⟨hpair, hpair.chain', ?_⟩
  simp [runProgressValues, List.replicate_one]

/-- C8: an exception with text e raised while processing the queued job at
position i leaves exactly that job Failed with the exception text recorded in
its error field, and the worker maps every queued job through _process_job,
so the whole queue is still processed (the output has one processed job per
queued job). -/
theorem worker_catches_per_job (queue : List (Job × Except String Bool)) (i : Nat)
    (j : Job) (e : String) (hq : queue.get? i = some (j, Except.error e)) :
    (workerRun queue).get? i =
      some { j with status := JobStatus.failed, error := some e } ∧
    (workerRun queue).length = queue.length := by
  constructor
  · rw [workerRun, List.get?_map, hq]
    rfl
  · simp [workerRun]

/-- Witness for C8: a two-job queue whose first job raises; the first job
comes out Failed with the exception text recorded and both jobs are
processed. -/
theorem worker_catches_per_job_witness :
    ([(jobA, (Except.error boomMsg : Except String Bool)),
        (jobB, Except.ok true)].get? 0 = some (jobA, Except.error boomMsg)) ∧
    (workerRun [(jobA, Except.error boomMsg), (jobB, Except.ok true)]).get? 0 =
      some { jobA with status := JobStatus.failed, error := some boomMsg } ∧
    (workerRun [(jobA, Except.error boomMsg), (jobB, Except.ok true)]).length = 2 :=
  ⟨rfl,
   (worker_catches_per_job [(jobA, Except.error boomMsg), (jobB, Except.ok true)]
      0 jobA boomMsg rfl).1,
   (worker_catches_per_job [(jobA, Except.error boomMsg), (jobB, Except.ok true)]
      0 jobA boomMsg rfl).2⟩

/-- C9: given an empty list of sample frames, analyze_video returns exactly
the documented neutral defaults: brightness 0.5, contrast 0.5, edge_density
0.3, color_richness 0.5, noise_level 0.2, motion_estimate 0.5; it is a total
function of its input, so the empty case does not raise. -/
theorem analyze_empty_defaults :
    analyzeVideo [] = defaultCharacteristics ∧
    (analyzeVideo []).brightness = 1/2 ∧
    (analyzeVideo []).contrast = 1/2 ∧
    (analyzeVideo []).edge_density = 3/10 ∧
    (analyzeVideo []).color_richness = 1/2 ∧
    (analyzeVideo []).noise_level = 1/5 ∧
    (analyzeVideo []).motion_estimate = 1/2 :=
  ⟨rfl, rfl, rfl, rfl, rfl, rfl, rfl⟩

/-! ## Tiled-inference evaluations and the identity property -/

theorem tilePositions_4x4 :
    tilePositions 4 4 (3 - 1) = [(0, 0), (0, 2), (2, 0), (2, 2)] := by decide

theorem tileAccum_corner_weight :
    (tileAccum (fun t => t) constFrame7 4 4 3 1).2 0 0 = 0 := by
  rw [tileAccum, tilePositions_4x4]
  norm_num [accTile, createWeightMap, reflectIdx, constFrame7, List.range_succ,
    Nat.min_def]

theorem tileAccum_corner_out :
    (tileAccum (fun t => t) constFrame7 4 4 3 1).1 0 0 = 0 := by
  rw [tileAccum, tilePositions_4x4]
  norm_num [accTile, createWeightMap, reflectIdx, constFrame7, List.range_succ,
    Nat.min_def]

theorem tileAccum_center_weight :
    (tileAccum (fun t => t) constFrame7 4 4 3 1).2 1 1 = 1 := by
  rw [tileAccum, tilePositions_4x4]
  norm_num [accTile, createWeightMap, reflectIdx, constFrame7, List.range_succ,
    Nat.min_def]

/-- With the identity network, every tile adds img r c times the weight it
adds to the weight accumulator, so the output accumulator always equals the
input pixel value times the weight accumulator. -/
theorem tileAccum_fst_eq_mul (img : Nat → Nat → ℚ) (h w tile overlap : Nat)
    (l : List (Nat × Nat)) :
    ∀ acc : (Nat → Nat → ℚ) × (Nat → Nat → ℚ),
      (∀ r c, acc.1 r c = img r c * acc.2 r c) →
      ∀ r c, (l.foldl (accTile (fun t => t) img h w tile overlap) acc).1 r c =
        img r c * (l.foldl (accTile (fun t => t) img h w tile overlap) acc).2 r c := by
  induction l with
  | nil => intro acc hacc r c; exact hacc r c
  | cons pos rest ih =>
      intro acc hacc r c
      obtain ⟨y, x⟩ := pos
      rw [List.foldl_cons]
      apply ih
      intro r c
      simp only [accTile]
      by_cases hin : y ≤ r ∧ r < min (y + tile) h ∧ x ≤ c ∧ c < min (x + tile) w
      · rw [if_pos hin, if_pos hin]
        have h1 : y + reflectIdx (min (y + tile) h - y) (r - y) = r := by
          rw [reflectIdx, if_pos (by omega)]
          omega
        have h2 : x + reflectIdx (min (x + tile) w - x) (c - x) = c := by
          rw [reflectIdx, if_pos (by omega)]
          omega
        rw [h1, h2, hacc r c]
        ring
      · rw [if_neg hin, if_neg hin]
        exact hacc r c

/-- C4 counterexample: infer_tiled with the identity stylizer on a 4x4 frame
of constant value 7, tile_size 3 and overlap 1 returns 0 at pixel (0, 0)
rather than the input value: the corner is covered by a single tile whose
feathered weight map is 0 there (the linear ramp starts at 0 on the tile
edge), so the accumulated weight is 0, the epsilon floor takes over, and the
accumulated output 0 divides to 0. -/
theorem tiled_identity_fails_at_corner :
    inferTiled (fun t => t) constFrame7 4 4 3 1 0 0 = 0 ∧
    constFrame7 0 0 = 7 ∧
    inferTiled (fun t => t) constFrame7 4 4 3 1 0 0 ≠ constFrame7 0 0 := by
  have hcond : ¬ ((4 : Nat) ≤ 3 ∧ (4 : Nat) ≤ 3) := by decide
  have hv : inferTiled (fun t => t) constFrame7 4 4 3 1 0 0 = 0 := by
    rw [inferTiled, if_neg hcond]
    show (tileAccum (fun t => t) constFrame7 4 4 3 1).1 0 0 /
        max ((tileAccum (fun t => t) constFrame7 4 4 3 1).2 0 0) epsQ = 0
    rw [tileAccum_corner_out, tileAccum_corner_weight]
    norm_num [epsQ]
  refine ⟨hv, rfl, ?_⟩
  rw [hv]
  norm_num [constFrame7]

/-- C4 amended: on the tiled path, at every pixel whose accumulated feather
weight reaches the epsilon floor the blend-and-normalize step is
weight-neutral for the identity stylizer and returns the input pixel exactly;
at pixels all of whose covering tiles contribute weight 0 (frame border
pixels, where the weight map's linear ramp starts at 0), the accumulated
output 0 is divided by the epsilon floor instead, yielding 0 rather than the
input. -/
theorem tiled_identity_where_weight_positive (img : Nat → Nat → ℚ)
    (h w tile overlap r c : Nat) (hbig : ¬ (h ≤ tile ∧ w ≤ tile))
    (hw : epsQ ≤ (tileAccum (fun t => t) img h w tile overlap).2 r c) :
    inferTiled (fun t => t) img h w tile overlap r c = img r c := by
  have heps : (0 : ℚ) < epsQ := by norm_num [epsQ]
  have hwpos : (0 : ℚ) < (tileAccum (fun t => t) img h w tile overlap).2 r c :=
    lt_of_lt_of_le heps hw
  have hkey : (tileAccum (fun t => t) img h w tile overlap).1 r c =
      img r c * (tileAccum (fun t => t) img h w tile overlap).2 r c :=
    tileAccum_fst_eq_mul img h w tile overlap
      (tilePositions h w (tile - overlap)) (fun _ _ => 0, fun _ _ => 0)
      (fun _ _ => by simp) r c
  rw [inferTiled, if_neg hbig]
  show (tileAccum (fun t => t) img h w tile overlap).1 r c /
      max ((tileAccum (fun t => t) img h w tile overlap).2 r c) epsQ = img r c
  rw [max_eq_left hw, hkey, mul_div_cancel_right₀ _ (ne_of_gt hwpos)]

/-- Witness for the amended C4: at interior pixel (1, 1) of the 4x4 constant
frame the accumulated weight is 1, above the epsilon floor, and the tiled
identity run reproduces the input value 7. -/
theorem tiled_identity_where_weight_positive_witness :
    ¬ ((4 : Nat) ≤ 3 ∧ (4 : Nat) ≤ 3) ∧
    epsQ ≤ (tileAccum (fun t => t) constFrame7 4 4 3 1).2 1 1 ∧
    inferTiled (fun t => t) constFrame7 4 4 3 1 1 1 = constFrame7 1 1 :=
  ⟨by decide,
   by rw [tileAccum_center_weight]; norm_num [epsQ],
   tiled_identity_where_weight_positive constFrame7 4 4 3 1 1 1 (by decide)
     (by rw [tileAccum_center_weight]; norm_num [epsQ])⟩

end VideoProducer
